import Mathlib

set_option maxRecDepth 40000
set_option exponentiation.threshold 2048

/-!
Verification of `generate_dummy_files.py`.

The program is shallowly embedded: every definition below is translated
from the Python source.  Bytes are modelled as `Nat` (the source only ever
produces ASCII or opaque random bytes), machine-level I/O is modelled by
explicit parameters (an injectable error position for `IOError`, an
oracle for `os.urandom`), and CPython's `float`/`int` string parsing is
modelled by exact decimal parsing followed by correctly rounded IEEE-754
double conversion (round to nearest, ties to even, overflow to infinity;
`int()` of an infinity is the uncaught `OverflowError`), matching CPython
`float()`; the `inf`/`nan` literal spellings and digit-group underscores
are not modelled (no claim depends on them).
-/

/-! ### Size parser (`parse_size`, source lines 14-47) -/

/-- An unreduced exact rational `num / den`, used only to state the
exact-arithmetic value of a decimal token (the spec's idealised
`int(N * multiplier)` formula, against which the program's IEEE-754
behaviour is compared). -/
structure PyRat where
  num : Int
  den : Nat
deriving DecidableEq

/-- Scale by a natural number (`number * units[unit]` in the source). -/
def PyRat.mulNat (q : PyRat) (m : Nat) : PyRat := ⟨q.num * (m : Int), q.den⟩

/-- Truncation toward zero of the exact rational (the spec's idealised
`int`). -/
def pyTrunc (q : PyRat) : Int := q.num.tdiv (q.den : Int)

/-- ASCII whitespace removed by Python's `str.strip()` (the Unicode-only
whitespace code points are not modelled). -/
def isPySpace (c : Char) : Bool :=
  c == ' ' || c == '\t' || c == '\n' || c == '\r' || c == '\x0b' || c == '\x0c'

/-- `str.strip()` on a list of characters. -/
def stripChars (cs : List Char) : List Char :=
  ((cs.dropWhile isPySpace).reverse.dropWhile isPySpace).reverse

/-- ASCII decimal digit test, as used by CPython's number parsing. -/
def isDig (c : Char) : Bool := 48 ≤ c.toNat && c.toNat ≤ 57

/-- All characters are ASCII digits. -/
def allDig (cs : List Char) : Bool := cs.all isDig

/-- Value of a digit string, most significant first. -/
def digitsToNat (cs : List Char) : Nat :=
  cs.foldl (fun a c => 10 * a + (c.toNat - 48)) 0

/-- Leading sign of a CPython numeric literal: `-` or `+` or nothing. -/
def parseSign (cs : List Char) : Bool × List Char :=
  match cs with
  | [] => (false, [])
  | c :: rest =>
      if c = '-' then (true, rest)
      else if c = '+' then (false, rest)
      else (false, c :: rest)

/-- Negate when the sign was `-`. -/
def applySign (b : Bool) (n : Int) : Int := if b then -n else n

/-- Errors `parse_size` can raise: `ValueError` (caught in the suffix
branches and re-raised as the `InvalidSizeFormat` message) and
`OverflowError` (from `int()` of an infinite float; the `except
ValueError` clause on line 40 does not catch it, so it propagates out of
`parse_size`). -/
inductive PyErr
  | valueError
  | overflowError
deriving DecidableEq

deriving instance DecidableEq for Except

/-- An IEEE-754 double as produced by CPython `float()`: zero, a finite
value `±m * 2^e`, or an infinity. -/
inductive PyFloat
  | zero
  | finite (neg : Bool) (m : Nat) (e : Int)
  | inf (neg : Bool)
deriving DecidableEq

/-- Number of binary digits of `n` (with structural fuel, so the kernel
can evaluate it: the recursion depth is the bit length). -/
def bitsAux : Nat → Nat → Nat
  | 0, _ => 0
  | fuel + 1, n => if n = 0 then 0 else bitsAux fuel (n / 2) + 1

/-- Bit length: for `n ≥ 1`, `2^(bits n - 1) ≤ n < 2^(bits n)`. -/
def bits (n : Nat) : Nat := bitsAux n n

/-- Decide `2^f ≤ a / b` for positive `a`, `b`. -/
def pow2LE (a b : Nat) (f : Int) : Bool :=
  if 0 ≤ f then b * 2 ^ f.toNat ≤ a else b ≤ a * 2 ^ (-f).toNat

/-- `floor (log2 (a / b))` for positive `a`, `b`: the difference of the
bit lengths brackets it within one, `pow2LE` settles which. -/
def qlog2 (a b : Nat) : Int :=
  if pow2LE a b ((bits a : Int) - (bits b : Int)) then (bits a : Int) - (bits b : Int)
  else (bits a : Int) - (bits b : Int) - 1

/-- Round `A / B` (with `B > 0`) to the nearest integer, ties to even. -/
def rhe (A B : Nat) : Nat :=
  if 2 * (A % B) < B then A / B
  else if B < 2 * (A % B) then A / B + 1
  else if A / B % 2 = 0 then A / B else A / B + 1

/-- Nearest-ties-even integer multiple of `2^e` in `a / b`, i.e. the
candidate mantissa at quantum exponent `e`. -/
def rheAt (a b : Nat) (e : Int) : Nat :=
  if 0 ≤ e then rhe a (b * 2 ^ e.toNat) else rhe (a * 2 ^ (-e).toNat) b

/-- Quantum exponent for the magnitude `a / b`: normal doubles carry 53
significant bits, tiny values saturate at the subnormal quantum
`2^(-1074)`. -/
def quantumExp (a b : Nat) : Int := max (qlog2 a b - 52) (-1074)

/-- Round the positive rational `a / b` to a double mantissa/exponent
pair; a mantissa that rounds up to `2^53` is renormalised. -/
def roundPosAux (a b : Nat) : Nat × Int :=
  if rheAt a b (quantumExp a b) = 2 ^ 53 then (2 ^ 52, quantumExp a b + 1)
  else (rheAt a b (quantumExp a b), quantumExp a b)

/-- CPython `float()` of the exact value `±a / b` (`b > 0`): correctly
rounded to the nearest double (ties to even), with overflow (rounded
magnitude at least `2^1024`) going to infinity and complete underflow to
zero. -/
def pyFloatOfRat (neg : Bool) (a b : Nat) : PyFloat :=
  if a = 0 then PyFloat.zero
  else if (roundPosAux a b).1 = 0 then PyFloat.zero
  else if 0 ≤ (roundPosAux a b).2 ∧
      2 ^ 1024 ≤ (roundPosAux a b).1 * 2 ^ (roundPosAux a b).2.toNat then PyFloat.inf neg
  else PyFloat.finite neg (roundPosAux a b).1 (roundPosAux a b).2

/-- Double multiplication by `2^k`: the multiplier `1024^rank` is the
exact power of two `2^(10*rank)`, so the mantissa never rounds; only the
exponent grows, overflowing to infinity at magnitude `2^1024`. -/
def mulPow2 (x : PyFloat) (k : Nat) : PyFloat :=
  match x with
  | PyFloat.zero => PyFloat.zero
  | PyFloat.inf neg => PyFloat.inf neg
  | PyFloat.finite neg m e =>
      if 0 ≤ e + (k : Int) ∧ 2 ^ 1024 ≤ m * 2 ^ (e + (k : Int)).toNat then PyFloat.inf neg
      else PyFloat.finite neg m (e + (k : Int))

/-- CPython `int(float)`: truncation toward zero; `int()` of an infinity
raises `OverflowError`, modelled as `none`. -/
def intOfPyFloat : PyFloat → Option Int
  | PyFloat.zero => some 0
  | PyFloat.inf _ => none
  | PyFloat.finite neg m e =>
      some (applySign neg
        (if 0 ≤ e then ((m * 2 ^ e.toNat : Nat) : Int) else ((m / 2 ^ (-e).toNat : Nat) : Int)))

/-- Mantissa of a CPython `float` literal: digits with an optional single
dot, at least one digit overall.  Returns the exact value as a
numerator/denominator pair: `intpart.fracpart` is
`(intpart * 10^l + fracpart) / 10^l` with `l` the fraction length. -/
def parseMantissa? (cs : List Char) : Option (Nat × Nat) :=
  let a := cs.takeWhile (fun c => decide (c ≠ '.'))
  let b := cs.dropWhile (fun c => decide (c ≠ '.'))
  match b with
  | [] => if cs ≠ [] ∧ allDig cs = true then some (digitsToNat cs, 1) else none
  | _ :: rest =>
      if allDig a = true ∧ allDig rest = true ∧ (a ≠ [] ∨ rest ≠ []) ∧ '.' ∉ rest then
        some (digitsToNat a * 10 ^ rest.length + digitsToNat rest, 10 ^ rest.length)
      else none

/-- Optional exponent part `E[±]digits` of a `float` literal (the input to
`float` in the source is already upper-cased). -/
def parseExp? (cs : List Char) : Option Int :=
  match cs with
  | [] => some 0
  | _ :: rest =>
      let s := parseSign rest
      if s.2 ≠ [] ∧ allDig s.2 = true then
        some (applySign s.1 (digitsToNat s.2 : Int))
      else none

/-- CPython `float(string)` on an already stripped, upper-cased string:
the exact decimal value (mantissa scaled by the optional power-of-ten
exponent) is correctly rounded to a double. -/
def pyFloat? (cs : List Char) : Option PyFloat :=
  let s := parseSign cs
  let m := s.2.takeWhile (fun c => decide (c ≠ 'E'))
  let e := s.2.dropWhile (fun c => decide (c ≠ 'E'))
  match parseMantissa? m, parseExp? e with
  | some q, some ex =>
      some (if 0 ≤ ex then pyFloatOfRat s.1 (q.1 * 10 ^ ex.toNat) q.2
            else pyFloatOfRat s.1 q.1 (q.2 * 10 ^ (-ex).toNat))
  | _, _ => none

/-- CPython `int(string)` on an already stripped string: optional sign and
a nonempty run of digits. -/
def pyInt? (cs : List Char) : Option Int :=
  let s := parseSign cs
  if s.2 ≠ [] ∧ allDig s.2 = true then
    some (applySign s.1 (digitsToNat s.2 : Int))
  else none

/-- `int(number * units[unit])` for a parsed float and unit rank `k`:
scale by `1024^k = 2^(10k)` and truncate; an infinite value raises the
uncaught `OverflowError`. -/
def floatScaleInt (f : PyFloat) (k : Nat) : Except PyErr Int :=
  match intOfPyFloat (mulPow2 f (10 * k)) with
  | some n => Except.ok n
  | none => Except.error PyErr.overflowError

/-- One unit branch of `parse_size`: `float()` the prefix before the
suffix (a parse failure is the caught `ValueError`), then scale and
truncate. -/
def floatUnitBranch (cs : List Char) (k : Nat) : Except PyErr Int :=
  match pyFloat? cs with
  | none => Except.error PyErr.valueError
  | some f => floatScaleInt f k

/-- Body of `parse_size` after `size_str.upper().strip()`: try the unit
suffixes in the dictionary's insertion order `KB, MB, GB, TB`; on a match
parse the prefix as a float and scale, otherwise fall back to `int`. -/
def parseSizeChars (t : List Char) : Except PyErr Int :=
  if List.isSuffixOf ['K', 'B'] t then floatUnitBranch (t.take (t.length - 2)) 1
  else if List.isSuffixOf ['M', 'B'] t then floatUnitBranch (t.take (t.length - 2)) 2
  else if List.isSuffixOf ['G', 'B'] t then floatUnitBranch (t.take (t.length - 2)) 3
  else if List.isSuffixOf ['T', 'B'] t then floatUnitBranch (t.take (t.length - 2)) 4
  else
    match pyInt? t with
    | some n => Except.ok n
    | none => Except.error PyErr.valueError

/-- `parse_size` (source lines 14-47) with its exception behaviour:
`size_str.upper().strip()` is modelled character-wise (`str.upper` maps
ASCII letters to upper case). -/
def parse_size_exc (s : String) : Except PyErr Int :=
  parseSizeChars (stripChars (s.data.map Char.toUpper))

/-- Forget which exception was raised. -/
def excToOption (e : Except PyErr Int) : Option Int :=
  match e with
  | Except.ok n => some n
  | Except.error _ => none

/-- `parse_size` viewed as a partial function: `none` means an exception
was raised -- `ValueError` (`InvalidSizeFormat`), or, only in a unit
branch whose float value is infinite, the uncaught `OverflowError`;
`parse_size_exc` keeps the distinction where it matters. -/
def parse_size (s : String) : Option Int :=
  excToOption (parse_size_exc s)

example : parse_size "1KB" = some 1024 := by decide
example : parse_size "2.5GB" = some 2684354560 := by decide
example : parse_size "100" = some 100 := by decide
example : parse_size " 2.5gb " = some 2684354560 := by decide
example : parse_size "2.5" = none := by decide
example : parse_size "-5" = some (-5) := by decide
example : parse_size "abcGB" = none := by decide
example : parse_size "" = none := by decide
example : parse_size "0" = some 0 := by decide
example : parse_size "2.5KB" = some 2560 := by decide
example : parse_size "1e3" = none := by decide
example : parse_size "1e1KB" = some 10240 := by decide
example : parse_size ".5KB" = some 512 := by decide
example : parse_size "+5" = some 5 := by decide
example : parse_size "9007199254740992.5KB" = some 9223372036854775808 := by decide
example : parse_size_exc "1E309KB" = Except.error PyErr.overflowError := by decide
example : parse_size_exc "1E308KB" = Except.error PyErr.overflowError := by decide
example : parse_size "1E-320KB" = some 0 := by decide

/-! ### Content generator and write loop (`generate_dummy_file`, source lines 59-129) -/

/-- Content types of the `--type` option. -/
inductive ContentType
  | random
  | zeros
  | pattern
  | text
deriving DecidableEq

/-- The fixed pattern `b'ABCDEFGHIJKLMNOPQRSTUVWXYZ0123456789'` (line 87),
as byte values. -/
def patternBytes : List Nat :=
  "ABCDEFGHIJKLMNOPQRSTUVWXYZ0123456789".data.map Char.toNat

/-- One formatted text line (line 91): the template with `str(i)`
substituted.  All characters are ASCII, so the UTF-8 encoding of the line
is its character codes. -/
def textLine (i : Nat) : String :=
  "This is a dummy file for testing purposes. Line number: " ++ toString i ++ "\n"

/-- `text_content` built by the loop on lines 93-95: `lines` consecutive
lines starting at line number 0, encoded as bytes. -/
def textBytes (lines : Nat) : List Nat :=
  ((List.range lines).map (fun i => (textLine i).data.map Char.toNat)).flatten

/-- One generated chunk (lines 83-98).  `rng` is an oracle for
`os.urandom`: byte `j` of a random chunk is `rng j`. -/
def genChunk (ct : ContentType) (rng : Nat → Nat) (n : Nat) : List Nat :=
  match ct with
  | ContentType.zeros => List.replicate n 0
  | ContentType.pattern =>
      ((List.replicate (n / patternBytes.length + 1) patternBytes).flatten).take n
  | ContentType.text => (textBytes (n / 64)).take n
  | ContentType.random => (List.range n).map rng

/-- One pass of the `while remaining > 0` loop body on `remaining`
(lines 78-101): subtract `current_chunk_size = min(chunk_size, remaining)`. -/
def loopStep (chunkSize r : Nat) : Nat := r - min chunkSize r

/-- The successive values of `current_chunk_size` requested from the
generator, computed with explicit fuel (the loop itself need not
terminate when `chunkSize = 0`; `fuel ≥ remaining ≥ 1 ≤ chunkSize`
suffices, see `chunkSizes_sum`). -/
def chunkSizes (chunkSize : Nat) : Nat → Nat → List Nat
  | 0, _ => []
  | fuel + 1, r => if r = 0 then [] else min chunkSize r :: chunkSizes chunkSize fuel (r - min chunkSize r)

/-- All bytes written to the file by the loop. -/
def fileBytes (ct : ContentType) (rng : Nat → Nat) (chunkSize sizeBytes : Nat) : List Nat :=
  ((chunkSizes chunkSize sizeBytes sizeBytes).map (genChunk ct rng)).flatten

/-- The `try` body of `generate_dummy_file` (lines 74-106): open plus the
sequence of writes.  `ioErr = some k` injects an `IOError` at the `k`-th
I/O operation (`k = 0` is the `open`, `k = j+1` the `j`-th write); an
injection index beyond the number of operations performed means no error
occurs.  On success the written content is returned. -/
def openWrite (ct : ContentType) (rng : Nat → Nat) (chunkSize sizeBytes : Nat)
    (ioErr : Option Nat) : Except Unit (List Nat) :=
  match ioErr with
  | some k =>
      if k ≤ (chunkSizes chunkSize sizeBytes sizeBytes).length then Except.error ()
      else Except.ok (fileBytes ct rng chunkSize sizeBytes)
  | none => Except.ok (fileBytes ct rng chunkSize sizeBytes)

/-- `generate_dummy_file` (lines 59-129): an `IOError` is caught and turns
into `False` (lines 111-113); otherwise the function re-reads the actual
on-disk size — the length of what was written — and returns
`actual_size == size_bytes` (line 129).  Progress and summary printing
have no effect on the result and are not modelled. -/
def generate_dummy_file (ct : ContentType) (rng : Nat → Nat) (chunkSize sizeBytes : Nat)
    (ioErr : Option Nat) : Bool :=
  match openWrite ct rng chunkSize sizeBytes ioErr with
  | Except.error _ => false
  | Except.ok bs => bs.length == sizeBytes

/-- Fixed oracle used for concrete evaluations. -/
def zeroRng : Nat → Nat := fun _ => 0

example : (textLine 0).length = 58 := by decide
example : genChunk ContentType.pattern zeroRng 5 = "ABCDE".data.map Char.toNat := by decide
example : (genChunk ContentType.text zeroRng 64).length = 58 := by decide
example : (genChunk ContentType.text zeroRng 10).length = 0 := by decide
example : chunkSizes 1048576 64 64 = [64] := by decide
example : (fileBytes ContentType.text zeroRng 1048576 64).length = 58 := by decide
example : generate_dummy_file ContentType.text zeroRng 1048576 64 none = false := by decide
example : generate_dummy_file ContentType.zeros zeroRng 4 8 none = true := by decide
example : chunkSizes 4 10 10 = [4, 4, 2] := by decide

/-! ### CLI driver (`main`, source lines 132-210) -/

/-- Index of the last occurrence of `c`, or `-1` (CPython `str.rfind`). -/
def rfindIdx (c : Char) (p : List Char) : Int :=
  match p.reverse.findIdx? (fun x => x == c) with
  | none => -1
  | some i => (p.length : Int) - 1 - (i : Int)

/-- `os.path.splitext` (posix): split at the last `.` that lies after the
last `/` and that has some non-dot character between them (so all-dots
basenames such as `.bashrc` keep no extension). -/
def splitextChars (p : List Char) : List Char × List Char :=
  let sepIndex := rfindIdx '/' p
  let dotIndex := rfindIdx '.' p
  if sepIndex < dotIndex ∧
      ¬ (((p.drop (sepIndex + 1).toNat).take (dotIndex - sepIndex - 1).toNat).all
          (fun c => c == '.')) = true then
    (p.take dotIndex.toNat, p.drop dotIndex.toNat)
  else (p, [])

/-- Output filename for the `i`-th (0-based) of `count` requested sizes
(lines 172-178): with several sizes, `f"{name}_{i+1}_{args.sizes[i]}{ext}"`
around the `splitext` of the base name; with a single size, the base name
itself. -/
def outputFilename (base : String) (count i : Nat) (tok : String) : String :=
  if 1 < count then
    String.mk ((splitextChars base.data).1 ++
      ('_' :: (toString (i + 1)).data) ++ ('_' :: tok.data) ++ (splitextChars base.data).2)
  else base

/-- `response.lower() in ['y', 'yes']` (lines 183, 195), with `str.lower`
modelled character-wise. -/
def sayYes (r : String) : Bool :=
  let low := r.data.map Char.toLower
  low == "y".data || low == "yes".data

/-- Per-file environment of one iteration of the loop on lines 172-205:
whether the target exists, the operator's overwrite answer, the free
space reported by `os.statvfs` (`none` models the `OSError`/
`AttributeError` path where the check is skipped), the operator's
disk-space answer, and the injected I/O error for this file's write. -/
structure FileEnv where
  exist : Bool
  owResp : String
  free : Option Nat
  spResp : String
  ioErr : Option Nat

/-- Outcome of one loop iteration: `skipped` (a `continue` was taken),
`success` (`success_count += 1`), or `failed` (the "Failed to generate"
branch). -/
inductive Outcome
  | skipped
  | success
  | failed
deriving DecidableEq

/-- One iteration of the per-file loop (lines 180-205). -/
def processFile (ct : ContentType) (rng : Nat → Nat) (force : Bool) (chunkSize : Nat)
    (sizeBytes : Nat) (env : FileEnv) : Outcome :=
  if env.exist && !force && !(sayYes env.owResp) then Outcome.skipped
  else
    match env.free with
    | some fs =>
        if fs < sizeBytes && !(sayYes env.spResp) then Outcome.skipped
        else if generate_dummy_file ct rng chunkSize sizeBytes env.ioErr then Outcome.success
        else Outcome.failed
    | none =>
        if generate_dummy_file ct rng chunkSize sizeBytes env.ioErr then Outcome.success
        else Outcome.failed

/-- `success_count` over the outcomes of all requested files. -/
def countSuccess (outs : List Outcome) : Nat :=
  outs.countP (fun o => decide (o = Outcome.success))

/-- Number of files that took the "Failed to generate" branch. -/
def countFailed (outs : List Outcome) : Nat :=
  outs.countP (fun o => decide (o = Outcome.failed))

example : processFile ContentType.zeros zeroRng false 4 8 ⟨true, "n", none, "", none⟩ = Outcome.skipped := by decide
example : processFile ContentType.zeros zeroRng false 4 8 ⟨true, "YES", none, "", none⟩ = Outcome.success := by decide
example : processFile ContentType.zeros zeroRng true 4 8 ⟨true, "n", none, "", none⟩ = Outcome.success := by decide
example : processFile ContentType.zeros zeroRng false 4 8 ⟨false, "", some 2, "n", none⟩ = Outcome.skipped := by decide
example : processFile ContentType.zeros zeroRng false 4 8 ⟨false, "", none, "", some 1⟩ = Outcome.failed := by decide
example : outputFilename "dummy.bin" 2 0 "100MB" = "dummy_1_100MB.bin" := by decide
example : outputFilename "dummy.bin" 2 1 "200MB" = "dummy_2_200MB.bin" := by decide
example : outputFilename "dummy.bin" 1 0 "100MB" = "dummy.bin" := by decide
example : splitextChars ".bashrc".data = (".bashrc".data, []) := by decide
example : splitextChars "a/b.c/d".data = ("a/b.c/d".data, []) := by decide
example : splitextChars "ar.tar.gz".data = ("ar.tar".data, ".gz".data) := by decide

/-! ### Helper lemmas: characters, takeWhile/dropWhile, suffixes -/

theorem isDig_of_allDig {l : List Char} (h : allDig l = true) {c : Char} (hc : c ∈ l) :
    isDig c = true := by
  have := List.all_eq_true.mp h
  exact this c hc

theorem isDig_ne {c : Char} (h : isDig c = true) :
    c ≠ '-' ∧ c ≠ '+' ∧ c ≠ '.' ∧ c ≠ 'E' ∧ c ≠ 'B' ∧ c ≠ '/' := by
  refine ⟨?_, ?_, ?_, ?_, ?_, ?_⟩ <;>
    · intro e
      rw [e] at h
      exact absurd h (by decide)

theorem takeWhile_all {p : Char → Bool} :
    ∀ l : List Char, (∀ c ∈ l, p c = true) → l.takeWhile p = l := by
  intro l
  induction l with
  | nil => intro _; rfl
  | cons a t ih =>
      intro h
      rw [List.takeWhile_cons, h a (by simp), ih (fun c hc => h c (by simp [hc]))]
      simp

theorem dropWhile_all {p : Char → Bool} :
    ∀ l : List Char, (∀ c ∈ l, p c = true) → l.dropWhile p = [] := by
  intro l
  induction l with
  | nil => intro _; rfl
  | cons a t ih =>
      intro h
      rw [List.dropWhile_cons, h a (by simp)]
      exact ih (fun c hc => h c (by simp [hc]))

theorem takeWhile_all_append {p : Char → Bool} :
    ∀ (l : List Char) (x : Char) (t : List Char), (∀ c ∈ l, p c = true) → p x = false →
      (l ++ x :: t).takeWhile p = l := by
  intro l x t hl hx
  induction l with
  | nil => simp [List.takeWhile_cons, hx]
  | cons a r ih =>
      rw [List.cons_append, List.takeWhile_cons, hl a (by simp)]
      rw [ih (fun c hc => hl c (by simp [hc]))]
      simp

theorem dropWhile_all_append {p : Char → Bool} :
    ∀ (l : List Char) (x : Char) (t : List Char), (∀ c ∈ l, p c = true) → p x = false →
      (l ++ x :: t).dropWhile p = x :: t := by
  intro l x t hl hx
  induction l with
  | nil => simp [List.dropWhile_cons, hx]
  | cons a r ih =>
      rw [List.cons_append, List.dropWhile_cons, hl a (by simp)]
      exact ih (fun c hc => hl c (by simp [hc]))

theorem suffix2_true (a b : Char) (x : List Char) :
    List.isSuffixOf [a, b] (x ++ [a, b]) = true := by
  rw [List.isSuffixOf_iff_suffix]
  exact ⟨x, rfl⟩

theorem suffix2_eq {a b c d : Char} {x : List Char}
    (h : List.isSuffixOf [a, b] (x ++ [c, d]) = true) : a = c ∧ b = d := by
  rw [List.isSuffixOf_iff_suffix] at h
  obtain ⟨t, ht⟩ := h
  have := List.append_inj' ht (by simp)
  have h2 := this.2
  exact ⟨by injection h2, by injection h2 with _ h3; injection h3⟩

theorem suffix2_getLast {a b : Char} {t : List Char}
    (h : List.isSuffixOf [a, b] t = true) : t.getLast? = some b := by
  rw [List.isSuffixOf_iff_suffix] at h
  obtain ⟨s, hs⟩ := h
  have : (s ++ [a]) ++ [b] = t := by simpa [List.append_assoc] using hs
  rw [← this, List.getLast?_concat]

theorem take_front2 (x : List Char) (c d : Char) :
    (x ++ [c, d]).take ((x ++ [c, d]).length - 2) = x := by
  have hl : (x ++ [c, d]).length - 2 = x.length := by simp
  rw [hl, List.take_left]

theorem exists_getLast (l : List Char) (h : l ≠ []) :
    ∃ c, l.getLast? = some c ∧ c ∈ l := by
  refine ⟨l.getLast h, ?_, List.getLast_mem h⟩
  have hd := List.dropLast_append_getLast h
  calc l.getLast? = (l.dropLast ++ [l.getLast h]).getLast? := by rw [hd]
    _ = some (l.getLast h) := List.getLast?_concat _

/-! ### Rendered decimals and their parses -/

/-- A canonical decimal token: optional minus sign, nonempty integer
digits, optional dot plus fraction digits. -/
def renderDec (neg : Bool) (ip fp : List Char) : List Char :=
  (if neg then ['-'] else []) ++ ip ++ (if fp = [] then [] else '.' :: fp)

/-- The exact value of the decimal token `renderDec neg ip fp`. -/
def decValue (neg : Bool) (ip fp : List Char) : PyRat :=
  ⟨applySign neg ((digitsToNat ip * 10 ^ fp.length + digitsToNat fp : Nat) : Int), 10 ^ fp.length⟩

theorem parseSign_minus (r : List Char) : parseSign ('-' :: r) = (true, r) := by
  simp [parseSign]

theorem parseSign_other {c : Char} (h1 : c ≠ '-') (h2 : c ≠ '+') (r : List Char) :
    parseSign (c :: r) = (false, c :: r) := by
  simp [parseSign, h1, h2]

theorem mem_body {ip fp : List Char} (hi : allDig ip = true) (hf : allDig fp = true)
    {c : Char} (hc : c ∈ ip ++ (if fp = [] then [] else '.' :: fp)) :
    isDig c = true ∨ c = '.' := by
  rcases List.mem_append.mp hc with h | h
  · exact Or.inl (isDig_of_allDig hi h)
  · by_cases hfp : fp = []
    · rw [hfp] at h; simp at h
    · rw [if_neg hfp] at h
      rcases List.mem_cons.mp h with h | h
      · exact Or.inr h
      · exact Or.inl (isDig_of_allDig hf h)

theorem parseSign_render (neg : Bool) (ip fp : List Char) (hip : ip ≠ [])
    (hi : allDig ip = true) :
    parseSign (renderDec neg ip fp) = (neg, ip ++ (if fp = [] then [] else '.' :: fp)) := by
  cases neg with
  | true => rw [renderDec]; simp only [if_pos rfl, List.singleton_append]; exact parseSign_minus _
  | false =>
      rw [renderDec]
      simp only [Bool.false_eq_true, if_neg, List.nil_append]
      obtain ⟨c, ip', rfl⟩ : ∃ c ip', ip = c :: ip' := by
        cases ip with
        | nil => exact absurd rfl hip
        | cons c ip' => exact ⟨c, ip', rfl⟩
      have hd := isDig_of_allDig hi (List.mem_cons_self c ip')
      have hne := isDig_ne hd
      rw [List.cons_append]
      exact parseSign_other hne.1 hne.2.1 _

theorem parseMantissa_render (ip fp : List Char) (hip : ip ≠ [])
    (hi : allDig ip = true) (hf : allDig fp = true) :
    parseMantissa? (ip ++ (if fp = [] then [] else '.' :: fp)) =
      some (digitsToNat ip * 10 ^ fp.length + digitsToNat fp, 10 ^ fp.length) := by
  have hdot : ∀ c ∈ ip, (decide (c ≠ '.')) = true := by
    intro c hc
    exact decide_eq_true (isDig_ne (isDig_of_allDig hi hc)).2.2.1
  by_cases hfp : fp = []
  · subst hfp
    rw [if_pos rfl, List.append_nil]
    simp only [parseMantissa?]
    simp only [takeWhile_all ip hdot, dropWhile_all ip hdot]
    rw [if_pos ⟨hip, hi⟩]
    simp [digitsToNat]
  · rw [if_neg hfp]
    simp only [parseMantissa?]
    simp only [takeWhile_all_append ip '.' fp hdot (by decide),
      dropWhile_all_append ip '.' fp hdot (by decide)]
    have hnotdot : '.' ∉ fp := by
      intro hmem
      exact absurd (isDig_of_allDig hf hmem) (by decide)
    rw [if_pos ⟨hi, hf, Or.inl hip, hnotdot⟩]

theorem pyFloat_render (neg : Bool) (ip fp : List Char) (hip : ip ≠ [])
    (hi : allDig ip = true) (hf : allDig fp = true) :
    pyFloat? (renderDec neg ip fp) =
      some (pyFloatOfRat neg (digitsToNat ip * 10 ^ fp.length + digitsToNat fp)
        (10 ^ fp.length)) := by
  have hE : ∀ c ∈ ip ++ (if fp = [] then [] else '.' :: fp), (decide (c ≠ 'E')) = true := by
    intro c hc
    rcases mem_body hi hf hc with h | h
    · exact decide_eq_true (isDig_ne h).2.2.2.1
    · subst h; decide
  simp only [pyFloat?]
  simp only [parseSign_render neg ip fp hip hi]
  simp only [takeWhile_all _ hE, dropWhile_all _ hE]
  rw [parseMantissa_render ip fp hip hi hf]
  show some _ = _
  rw [if_pos (le_refl (0 : Int))]
  simp [Int.toNat_zero]

/-! ### Unit suffixes -/

/-- The four unit suffixes accepted by `parse_size`, with their ranks. -/
inductive SizeUnit
  | kb
  | mb
  | gb
  | tb
deriving DecidableEq

/-- Rank `k` with multiplier `1024 ^ k`. -/
def SizeUnit.rank : SizeUnit → Nat
  | SizeUnit.kb => 1
  | SizeUnit.mb => 2
  | SizeUnit.gb => 3
  | SizeUnit.tb => 4

/-- The suffix characters (upper-cased form). -/
def SizeUnit.chars : SizeUnit → List Char
  | SizeUnit.kb => ['K', 'B']
  | SizeUnit.mb => ['M', 'B']
  | SizeUnit.gb => ['G', 'B']
  | SizeUnit.tb => ['T', 'B']

theorem suffix2_false {a b c d : Char} (x : List Char) (hne : ¬(a = c ∧ b = d)) :
    List.isSuffixOf [a, b] (x ++ [c, d]) = false := by
  cases h : List.isSuffixOf [a, b] (x ++ [c, d]) with
  | false => rfl
  | true => exact absurd (suffix2_eq h) hne

theorem unit_suffix_false {t : List Char} (hc : ∃ c, t.getLast? = some c ∧ isDig c = true)
    (a : Char) : List.isSuffixOf [a, 'B'] t = false := by
  cases h : List.isSuffixOf [a, 'B'] t with
  | false => rfl
  | true =>
      obtain ⟨c, hgl, hd⟩ := hc
      rw [suffix2_getLast h] at hgl
      injection hgl with hgl
      rw [← hgl] at hd
      exact absurd hd (by decide)

theorem parseSizeChars_unit (u : SizeUnit) (neg : Bool) (ip fp : List Char)
    (hip : ip ≠ []) (hi : allDig ip = true) (hf : allDig fp = true) :
    parseSizeChars (renderDec neg ip fp ++ u.chars) =
      floatScaleInt
        (pyFloatOfRat neg (digitsToNat ip * 10 ^ fp.length + digitsToNat fp)
          (10 ^ fp.length)) u.rank := by
  have hren := pyFloat_render neg ip fp hip hi hf
  cases u with
  | kb =>
      simp only [SizeUnit.chars, SizeUnit.rank, parseSizeChars]
      rw [if_pos (suffix2_true 'K' 'B' _), take_front2]
      simp only [floatUnitBranch]
      rw [hren]
  | mb =>
      simp only [SizeUnit.chars, SizeUnit.rank, parseSizeChars]
      rw [if_neg (by rw [suffix2_false _ (by decide)]; exact Bool.false_ne_true),
        if_pos (suffix2_true 'M' 'B' _), take_front2]
      simp only [floatUnitBranch]
      rw [hren]
  | gb =>
      simp only [SizeUnit.chars, SizeUnit.rank, parseSizeChars]
      rw [if_neg (by rw [suffix2_false _ (by decide)]; exact Bool.false_ne_true),
        if_neg (by rw [suffix2_false _ (by decide)]; exact Bool.false_ne_true),
        if_pos (suffix2_true 'G' 'B' _), take_front2]
      simp only [floatUnitBranch]
      rw [hren]
  | tb =>
      simp only [SizeUnit.chars, SizeUnit.rank, parseSizeChars]
      rw [if_neg (by rw [suffix2_false _ (by decide)]; exact Bool.false_ne_true),
        if_neg (by rw [suffix2_false _ (by decide)]; exact Bool.false_ne_true),
        if_neg (by rw [suffix2_false _ (by decide)]; exact Bool.false_ne_true),
        if_pos (suffix2_true 'T' 'B' _), take_front2]
      simp only [floatUnitBranch]
      rw [hren]

theorem getLast_renderDec (neg : Bool) (ip fp : List Char) (hip : ip ≠ [])
    (hi : allDig ip = true) (hf : allDig fp = true) :
    ∃ c, (renderDec neg ip fp).getLast? = some c ∧ isDig c = true := by
  by_cases hfp : fp = []
  · subst hfp
    obtain ⟨c, hc, hm⟩ := exists_getLast ip hip
    refine ⟨c, ?_, isDig_of_allDig hi hm⟩
    rw [renderDec, if_pos rfl, List.append_nil]
    simp [hc]
  · obtain ⟨c, hc, hm⟩ := exists_getLast fp hfp
    refine ⟨c, ?_, isDig_of_allDig hf hm⟩
    rw [renderDec, if_neg hfp]
    have : ('.' :: fp).getLast? = some c := by
      rw [← List.singleton_append, List.getLast?_append, hc]
      rfl
    simp [this]

theorem parseSizeChars_bare (neg : Bool) (ds : List Char)
    (h1 : ds ≠ []) (h2 : allDig ds = true) :
    parseSizeChars (renderDec neg ds []) = Except.ok (applySign neg (digitsToNat ds : Int)) := by
  have hlast := getLast_renderDec neg ds [] h1 h2 (by decide)
  have hint : pyInt? (renderDec neg ds []) = some (applySign neg (digitsToNat ds : Int)) := by
    simp only [pyInt?]
    rw [parseSign_render neg ds [] h1 h2]
    simp [h1, h2]
  simp only [parseSizeChars]
  rw [if_neg (by rw [unit_suffix_false hlast]; exact Bool.false_ne_true),
    if_neg (by rw [unit_suffix_false hlast]; exact Bool.false_ne_true),
    if_neg (by rw [unit_suffix_false hlast]; exact Bool.false_ne_true),
    if_neg (by rw [unit_suffix_false hlast]; exact Bool.false_ne_true), hint]

theorem parseSizeChars_fractional_bare (neg : Bool) (ip fp : List Char)
    (hip : ip ≠ []) (hi : allDig ip = true) (hf : allDig fp = true) (hfp : fp ≠ []) :
    parseSizeChars (renderDec neg ip fp) = Except.error PyErr.valueError := by
  have hlast := getLast_renderDec neg ip fp hip hi hf
  have hint : pyInt? (renderDec neg ip fp) = none := by
    simp only [pyInt?]
    rw [parseSign_render neg ip fp hip hi, if_neg hfp]
    have hdotall : allDig (ip ++ '.' :: fp) = false := by
      simp [allDig, List.all_append, List.all_cons, (show isDig '.' = false by decide)]
    simp [hdotall]
  simp only [parseSizeChars]
  rw [if_neg (by rw [unit_suffix_false hlast]; exact Bool.false_ne_true),
    if_neg (by rw [unit_suffix_false hlast]; exact Bool.false_ne_true),
    if_neg (by rw [unit_suffix_false hlast]; exact Bool.false_ne_true),
    if_neg (by rw [unit_suffix_false hlast]; exact Bool.false_ne_true), hint]

/-- Counterexample to claim C3: the claim asserts the exact value
`int(N * 1024^k)`, but the program rounds `N` to the nearest double
first.  At `N = 9007199254740992.5` with unit `KB` — a 17-significant-
digit mantissa lying exactly half way between `2^53` and `2^53 + 2` —
`float()` rounds down to `9007199254740992.0` (ties to even) and the
program returns `2^63 = 9223372036854775808`, while the claim's exact
formula (`pyTrunc` of the exact decimal value `decValue` times 1024)
gives `9223372036854776320`. -/
theorem parse_size_float_rounding_cex :
    parse_size "9007199254740992.5KB" = some 9223372036854775808 ∧
    pyTrunc ((decValue false "9007199254740992".data "5".data).mulNat 1024) =
      9223372036854776320 ∧
    ¬ (9223372036854775808 : Int) = 9223372036854776320 := by decide

/-- Claim C3 (amended): for every decimal number `N` followed by a unit
suffix from `{KB, MB, GB, TB}` (case-insensitive, optional surrounding
whitespace), `parse_size` returns `int(fl(N) * 1024^k)` with `k` the
unit's rank 1..4, where `fl` rounds `N` to the nearest IEEE-754 double
(ties to even); the multiplication by the power of two `1024^k` is exact
in double arithmetic unless the value is infinite, in which case `int()`
raises an uncaught `OverflowError` instead of returning.  For a bare
integer string `parse_size` returns that integer exactly, and on the
claim's examples the rounded and the exact formulas agree:
`parse_size "1KB" = 1024`, `parse_size "2.5GB" = 2684354560`,
`parse_size "100" = 100`. -/
theorem parse_size_spec :
    (∀ (s : String) (neg : Bool) (ip fp : List Char) (u : SizeUnit),
        ip ≠ [] → allDig ip = true → allDig fp = true →
        stripChars (s.data.map Char.toUpper) = renderDec neg ip fp ++ u.chars →
        parse_size_exc s =
          floatScaleInt
            (pyFloatOfRat neg (digitsToNat ip * 10 ^ fp.length + digitsToNat fp)
              (10 ^ fp.length)) u.rank) ∧
    (∀ (s : String) (neg : Bool) (ds : List Char),
        ds ≠ [] → allDig ds = true →
        stripChars (s.data.map Char.toUpper) = renderDec neg ds [] →
        parse_size s = some (applySign neg (digitsToNat ds : Int))) ∧
    parse_size "1KB" = some 1024 ∧ parse_size "2.5GB" = some 2684354560 ∧
    parse_size "100" = some 100 ∧
    parse_size_exc "1E309KB" = Except.error PyErr.overflowError ∧
    parse_size_exc "1E308KB" = Except.error PyErr.overflowError := by
  refine ⟨?_, ?_, by decide, by decide, by decide, by decide, by decide⟩
  · intro s neg ip fp u hip hi hf hs
    rw [parse_size_exc, hs]
    exact parseSizeChars_unit u neg ip fp hip hi hf
  · intro s neg ds h1 h2 hs
    rw [parse_size, parse_size_exc, hs, parseSizeChars_bare neg ds h1 h2]
    rfl

/-- Witness for `parse_size_spec`: a lower-case, whitespace-padded
fractional size with a unit, and a signed bare integer. -/
theorem parse_size_spec_witness :
    parse_size_exc " 2.5gb " =
        floatScaleInt
          (pyFloatOfRat false
            (digitsToNat ['2'] * 10 ^ (['5'] : List Char).length + digitsToNat ['5'])
            (10 ^ (['5'] : List Char).length)) SizeUnit.gb.rank ∧
    parse_size "-07" = some (applySign true (digitsToNat ['0', '7'] : Int)) :=
  ⟨parse_size_spec.1 " 2.5gb " false ['2'] ['5'] SizeUnit.gb (by decide) (by decide)
      (by decide) (by decide),
    parse_size_spec.2.1 "-07" true ['0', '7'] (by decide) (by decide) (by decide)⟩

/-- Counterexample to claim C6: `parse_size "2.5"` does not succeed with
value 2 — the bare branch uses `int()`, which rejects fractional strings,
so the parse raises `InvalidSizeFormat` (modelled as `none`). -/
theorem parse_size_fractional_cex :
    parse_size "2.5" = none ∧ ¬ parse_size "2.5" = some 2 := by decide

/-- Claim C6 (amended): a fractional decimal number without a unit suffix
is rejected by `parse_size` (the no-suffix branch parses with `int()`,
which only accepts integer strings); fractional numbers are accepted only
when a unit suffix follows, e.g. `parse_size "2.5KB" = 2560`. -/
theorem parse_size_fractional_without_unit :
    (∀ (s : String) (neg : Bool) (ip fp : List Char),
        ip ≠ [] → allDig ip = true → allDig fp = true → fp ≠ [] →
        stripChars (s.data.map Char.toUpper) = renderDec neg ip fp →
        parse_size s = none) ∧
    parse_size "2.5" = none ∧ parse_size "2.5KB" = some 2560 := by
  refine ⟨?_, by decide, by decide⟩
  intro s neg ip fp hip hi hf hfp hs
  rw [parse_size, parse_size_exc, hs, parseSizeChars_fractional_bare neg ip fp hip hi hf hfp]
  rfl

/-- Witness for `parse_size_fractional_without_unit` at the concrete
input `"2.5"`. -/
theorem parse_size_fractional_without_unit_witness :
    parse_size "2.5" = none :=
  parse_size_fractional_without_unit.1 "2.5" false ['2'] ['5'] (by decide) (by decide)
    (by decide) (by decide) (by decide)

/-- Counterexample to claim C7: `parse_size` accepts the input `"-5"` and
returns the negative byte count `-5`. -/
theorem parse_size_negative_cex :
    parse_size "-5" = some (-5) ∧ ¬ (0 : Int) ≤ -5 := by decide

theorem parseSign_fst_minus (cs : List Char) (h : (parseSign cs).1 = true) :
    cs.head? = some '-' := by
  cases cs with
  | nil => simp [parseSign] at h
  | cons c rest =>
      by_cases hc : c = '-'
      · subst hc; rfl
      · exfalso
        simp only [parseSign, if_neg hc] at h
        by_cases hp : c = '+'
        · rw [if_pos hp] at h; simp at h
        · rw [if_neg hp] at h; simp at h

theorem parseSign_fst_false {cs : List Char} (hh : cs.head? ≠ some '-') :
    (parseSign cs).1 = false := by
  cases hb : (parseSign cs).1 with
  | false => rfl
  | true => exact absurd (parseSign_fst_minus cs hb) hh

theorem head?_take {t : List Char} {n : Nat} {c : Char} (h : (t.take n).head? = some c) :
    t.head? = some c := by
  cases t with
  | nil => simp at h
  | cons a r =>
      cases n with
      | zero => simp at h
      | succ n => simpa using h

/-- The sign of a double is non-negative. -/
def PyFloat.nonneg : PyFloat → Prop
  | PyFloat.zero => True
  | PyFloat.finite neg _ _ => neg = false
  | PyFloat.inf neg => neg = false

theorem pyFloatOfRat_false_nonneg (a b : Nat) : (pyFloatOfRat false a b).nonneg := by
  simp only [pyFloatOfRat]
  split
  · trivial
  · split
    · trivial
    · split
      · rfl
      · rfl

theorem mulPow2_nonneg {f : PyFloat} (h : f.nonneg) (k : Nat) : (mulPow2 f k).nonneg := by
  cases f with
  | zero => trivial
  | inf neg => exact h
  | finite neg m e =>
      simp only [mulPow2]
      split
      · exact h
      · exact h

theorem intOfPyFloat_nonneg {f : PyFloat} {n : Int} (hf : f.nonneg)
    (h : intOfPyFloat f = some n) : 0 ≤ n := by
  cases f with
  | zero =>
      simp only [intOfPyFloat] at h
      injection h with h
      omega
  | inf neg => exact absurd h (by simp [intOfPyFloat])
  | finite neg m e =>
      simp only [intOfPyFloat] at h
      injection h with h
      subst h
      have hneg : neg = false := hf
      subst hneg
      simp only [applySign, if_neg Bool.false_ne_true]
      split
      · exact Int.natCast_nonneg _
      · exact Int.natCast_nonneg _

theorem pyFloat_head_nonneg {cs : List Char} {f : PyFloat} (hh : cs.head? ≠ some '-')
    (h : pyFloat? cs = some f) : f.nonneg := by
  have hsign : (parseSign cs).1 = false := parseSign_fst_false hh
  simp only [pyFloat?] at h
  cases hm : parseMantissa? ((parseSign cs).2.takeWhile (fun c => decide (c ≠ 'E'))) with
  | none => rw [hm] at h; exact Option.noConfusion h
  | some q =>
      rw [hm] at h
      cases hx : parseExp? ((parseSign cs).2.dropWhile (fun c => decide (c ≠ 'E'))) with
      | none => rw [hx] at h; exact Option.noConfusion h
      | some ex =>
          rw [hx] at h
          injection h with h
          subst h
          rw [hsign]
          split
          · exact pyFloatOfRat_false_nonneg _ _
          · exact pyFloatOfRat_false_nonneg _ _

theorem floatUnitBranch_nonneg {cs : List Char} {k : Nat} {n : Int}
    (hh : cs.head? ≠ some '-') (h : floatUnitBranch cs k = Except.ok n) : 0 ≤ n := by
  simp only [floatUnitBranch] at h
  cases hf : pyFloat? cs with
  | none => rw [hf] at h; exact Except.noConfusion h
  | some f =>
      rw [hf] at h
      simp only [floatScaleInt] at h
      cases hi2 : intOfPyFloat (mulPow2 f (10 * k)) with
      | none => rw [hi2] at h; exact Except.noConfusion h
      | some m =>
          rw [hi2] at h
          have hm : m = n := Except.ok.inj h
          subst hm
          exact intOfPyFloat_nonneg (mulPow2_nonneg (pyFloat_head_nonneg hh hf) _) hi2

theorem parseSizeChars_nonneg {t : List Char} {k : Int}
    (h : parseSizeChars t = Except.ok k) (hh : t.head? ≠ some '-') : 0 ≤ k := by
  have hh2 : (t.take (t.length - 2)).head? ≠ some '-' := fun hc => hh (head?_take hc)
  rw [parseSizeChars] at h
  split at h
  · exact floatUnitBranch_nonneg hh2 h
  · split at h
    · exact floatUnitBranch_nonneg hh2 h
    · split at h
      · exact floatUnitBranch_nonneg hh2 h
      · split at h
        · exact floatUnitBranch_nonneg hh2 h
        · cases hi : pyInt? t with
          | none => rw [hi] at h; exact Except.noConfusion h
          | some m =>
              rw [hi] at h
              have hm : m = k := Except.ok.inj h
              subst hm
              simp only [pyInt?] at hi
              split at hi
              · injection hi with hi
                subst hi
                rw [parseSign_fst_false hh]
                simp only [applySign, if_neg Bool.false_ne_true]
                exact Int.natCast_nonneg _
              · exact Option.noConfusion hi

theorem excToOption_ok {e : Except PyErr Int} {k : Int} (h : excToOption e = some k) :
    e = Except.ok k := by
  cases e with
  | ok n =>
      simp only [excToOption] at h
      injection h with h
      rw [h]
  | error pe => simp [excToOption] at h

/-- Claim C7 (amended): every successful `parse_size` result whose
normalized (upper-cased, stripped) input does not start with a minus sign
is non-negative — the sign of the parsed number is exactly a leading `-`,
so this covers all successful parses with a non-negative numeric portion
(`"+5"`, `".5KB"`, `"1E1KB"`, ...); `parse_size` does, however, also
accept a leading minus and then returns a negative byte count
(`parse_size "-5" = some (-5)`). -/
theorem parse_size_nonneg :
    ∀ (s : String) (k : Int),
      parse_size s = some k →
      (stripChars (s.data.map Char.toUpper)).head? ≠ some '-' →
      0 ≤ k := by
  intro s k h hh
  rw [parse_size] at h
  exact parseSizeChars_nonneg (excToOption_ok h) hh

/-- Witness for `parse_size_nonneg` at `".5KB"` and `"+5"`. -/
theorem parse_size_nonneg_witness :
    parse_size ".5KB" = some 512 ∧ parse_size "+5" = some 5 ∧
    (0 : Int) ≤ 512 ∧ (0 : Int) ≤ 5 :=
  ⟨by decide, by decide, parse_size_nonneg ".5KB" 512 (by decide) (by decide),
    parse_size_nonneg "+5" 5 (by decide) (by decide)⟩

/-! ### Write-loop lemmas -/

theorem chunkSizes_sum (c : Nat) (hc : 1 ≤ c) :
    ∀ (fuel r : Nat), r ≤ fuel → (chunkSizes c fuel r).sum = r := by
  intro fuel
  induction fuel with
  | zero =>
      intro r hr
      have : r = 0 := by omega
      subst this
      rfl
  | succ n ih =>
      intro r hr
      by_cases h0 : r = 0
      · subst h0; simp [chunkSizes]
      · rw [chunkSizes, if_neg h0, List.sum_cons]
        have hmin1 : 1 ≤ min c r := le_min hc (by omega)
        have hminr : min c r ≤ r := Nat.min_le_right c r
        rw [ih (r - min c r) (by omega)]
        omega

theorem flatten_replicate_length (m : Nat) (l : List Nat) :
    ((List.replicate m l).flatten).length = m * l.length := by
  induction m with
  | zero => simp
  | succ n ih =>
      rw [List.replicate_succ, List.flatten_cons, List.length_append, ih]
      ring

theorem genChunk_length (ct : ContentType) (hct : ct ≠ ContentType.text)
    (rng : Nat → Nat) (n : Nat) : (genChunk ct rng n).length = n := by
  cases ct with
  | text => exact absurd rfl hct
  | zeros => simp [genChunk]
  | random => simp [genChunk]
  | pattern =>
      show (((List.replicate (n / patternBytes.length + 1) patternBytes).flatten).take n).length = n
      have hp : patternBytes.length = 36 := by decide
      rw [List.length_take, flatten_replicate_length, hp]
      have hd := Nat.div_add_mod n 36
      have hm := Nat.mod_lt n (show 0 < 36 by decide)
      omega

theorem genChunk_text_le (rng : Nat → Nat) (n : Nat) :
    (genChunk ContentType.text rng n).length ≤ n := by
  show ((textBytes (n / 64)).take n).length ≤ n
  rw [List.length_take]
  exact Nat.min_le_left n _

theorem fileBytes_length (ct : ContentType) (hct : ct ≠ ContentType.text)
    (rng : Nat → Nat) (c S : Nat) (hc : 1 ≤ c) :
    (fileBytes ct rng c S).length = S := by
  rw [fileBytes, List.length_flatten, List.map_map]
  have hcongr : (chunkSizes c S S).map (List.length ∘ genChunk ct rng) =
      (chunkSizes c S S).map id :=
    List.map_congr_left (fun a _ => genChunk_length ct hct rng a)
  rw [hcongr, List.map_id]
  exact chunkSizes_sum c hc S S le_rfl

/-- With a positive chunk size and a non-text content type,
`generate_dummy_file` succeeds when no I/O error occurs. -/
theorem generate_success_non_text (ct : ContentType) (hct : ct ≠ ContentType.text)
    (rng : Nat → Nat) (c S : Nat) (hc : 1 ≤ c) :
    generate_dummy_file ct rng c S none = true := by
  simp [generate_dummy_file, openWrite, fileBytes_length ct hct rng c S hc]

/-! ### Claims about the generator and the writer -/

/-- Claim C1 fails on the code for content type `text` (and holds for the
others, see `fileBytes_length`): at total size 64 with the default 1 MiB
chunk size, the generator is asked for chunks that sum to exactly 64, but
only 58 bytes are written (one 58-byte line, since `lines_needed = 64 // 64
= 1` and the truncation never pads), and `generate_dummy_file` itself then
reports failure. -/
theorem text_file_undersized :
    (chunkSizes 1048576 64 64).sum = 64 ∧
    (fileBytes ContentType.text zeroRng 1048576 64).length = 58 ∧
    ¬ (fileBytes ContentType.text zeroRng 1048576 64).length = 64 ∧
    generate_dummy_file ContentType.text zeroRng 1048576 64 none = false := by decide

/-- Claim C2 fails on the code for content type `text`: a requested chunk
length of 64 yields only 58 bytes — `lines_needed = n // 64` of lines that
are 58 bytes long under-fills the chunk and `[:n]` only truncates, never
pads.  (The other three content types do return exactly `n` bytes, see
`genChunk_length`.) -/
theorem text_chunk_undersized :
    (genChunk ContentType.text zeroRng 64).length = 58 ∧
    ¬ (genChunk ContentType.text zeroRng 64).length = 64 ∧
    (genChunk ContentType.text zeroRng 63).length = 0 := by decide

/-- Claim C4: `generate_dummy_file` returns `True` only when the final
on-disk size equals the requested size exactly, and an I/O error during
open or write is caught and yields `False` instead of propagating. -/
theorem generate_result_semantics :
    (∀ (ct : ContentType) (rng : Nat → Nat) (c S : Nat) (e : Option Nat),
        generate_dummy_file ct rng c S e = true →
        openWrite ct rng c S e = Except.ok (fileBytes ct rng c S) ∧
          (fileBytes ct rng c S).length = S) ∧
    (∀ (ct : ContentType) (rng : Nat → Nat) (c S k : Nat),
        k ≤ (chunkSizes c S S).length →
        generate_dummy_file ct rng c S (some k) = false) := by
  constructor
  · intro ct rng c S e h
    rw [generate_dummy_file] at h
    cases hw : openWrite ct rng c S e with
    | error u => rw [hw] at h; cases h
    | ok bs =>
        rw [hw] at h
        have hb : bs.length = S := by simpa using h
        have hbs : bs = fileBytes ct rng c S := by
          cases e with
          | none =>
              rw [openWrite] at hw
              exact (Except.ok.inj hw).symm
          | some k =>
              rw [openWrite] at hw
              by_cases hk : k ≤ (chunkSizes c S S).length
              · rw [if_pos hk] at hw; cases hw
              · rw [if_neg hk] at hw
                exact (Except.ok.inj hw).symm
        subst hbs
        exact ⟨rfl, hb⟩
  · intro ct rng c S k hk
    rw [generate_dummy_file, openWrite, if_pos hk]

/-- Witness for `generate_result_semantics`: a successful zeros write (8
bytes in chunks of 4) and an injected failure at the `open`. -/
theorem generate_result_semantics_witness :
    (openWrite ContentType.zeros zeroRng 4 8 none =
        Except.ok (fileBytes ContentType.zeros zeroRng 4 8) ∧
      (fileBytes ContentType.zeros zeroRng 4 8).length = 8) ∧
    generate_dummy_file ContentType.zeros zeroRng 4 8 (some 0) = false :=
  ⟨generate_result_semantics.1 ContentType.zeros zeroRng 4 8 none (by decide),
    generate_result_semantics.2 ContentType.zeros zeroRng 4 8 0 (by decide)⟩

theorem take_flatten_replicate (l : List Nat) (m k n : Nat)
    (hn : n ≤ m * l.length) (hmk : m ≤ k) :
    ((List.replicate k l).flatten).take n = ((List.replicate m l).flatten).take n := by
  have hsplit : List.replicate k l = List.replicate m l ++ List.replicate (k - m) l := by
    rw [← List.replicate_add]
    congr 1
    omega
  rw [hsplit, List.flatten_append,
    List.take_append_of_le_length (by rw [flatten_replicate_length]; exact hn)]

/-- Claim C5: for every `n ≥ 0` the zeros generator returns exactly `n`
zero bytes, and the pattern generator returns the first `n` bytes of the
repetition of `ABCDEFGHIJKLMNOPQRSTUVWXYZ0123456789` starting at offset 0
in every chunk; in particular `n = 10` gives 10 zero bytes, `n = 5` gives
`b"ABCDE"`, and `n = 40` gives the 36-character alphabet followed by its
first 4 characters. -/
theorem zeros_and_pattern_chunks :
    (∀ (rng : Nat → Nat) (n : Nat), genChunk ContentType.zeros rng n = List.replicate n 0) ∧
    (∀ (rng : Nat → Nat) (n : Nat),
        genChunk ContentType.pattern rng n = ((List.replicate n patternBytes).flatten).take n) ∧
    genChunk ContentType.zeros zeroRng 10 = List.replicate 10 0 ∧
    genChunk ContentType.pattern zeroRng 5 = "ABCDE".data.map Char.toNat ∧
    genChunk ContentType.pattern zeroRng 40 = patternBytes ++ patternBytes.take 4 := by
  refine ⟨fun rng n => rfl, ?_, by decide, by decide, by decide⟩
  intro rng n
  show ((List.replicate (n / patternBytes.length + 1) patternBytes).flatten).take n = _
  have hp : patternBytes.length = 36 := by decide
  rw [hp]
  rcases Nat.eq_zero_or_pos n with h0 | h1
  · subst h0; simp
  · have hd := Nat.div_add_mod n 36
    have hm := Nat.mod_lt n (show 0 < 36 by decide)
    exact (take_flatten_replicate patternBytes (n / 36 + 1) n n
      (by rw [hp]; omega) (by omega)).symm

/-- Claim C10: the write loop terminates for a requested size `S ≥ 0`
exactly when `chunk_size ≥ 1` or `S = 0` — with a positive chunk size
`remaining` strictly decreases to exactly 0, while with `chunk_size = 0`
and `S > 0` it never changes — and the string `"0"` is accepted by the
`--chunk-size` size grammar with value 0. -/
theorem write_loop_terminates_iff :
    (∀ (chunkSize S : Nat),
        (∃ k, (loopStep chunkSize)^[k] S = 0) ↔ (1 ≤ chunkSize ∨ S = 0)) ∧
    parse_size "0" = some 0 := by
  refine ⟨?_, by decide⟩
  intro c S
  constructor
  · rintro ⟨k, hk⟩
    by_cases hc : 1 ≤ c
    · exact Or.inl hc
    · right
      have hc0 : c = 0 := by omega
      subst hc0
      have hfix : ∀ m, (loopStep 0)^[m] S = S := by
        intro m
        induction m with
        | zero => rfl
        | succ m ih =>
            rw [Function.iterate_succ_apply']
            rw [ih]
            simp [loopStep]
      rw [hfix k] at hk
      exact hk
  · intro h
    rcases h with hc | h0
    · refine ⟨S, ?_⟩
      have hreach : ∀ n r, r ≤ n → (loopStep c)^[n] r = 0 := by
        intro n
        induction n with
        | zero =>
            intro r hr
            have : r = 0 := by omega
            subst this
            rfl
        | succ n ih =>
            intro r hr
            rw [Function.iterate_succ_apply]
            apply ih
            rcases Nat.eq_zero_or_pos r with h0 | h1
            · subst h0; simp [loopStep]
            · have hmin : 1 ≤ min c r := le_min hc h1
              have hminr : min c r ≤ r := Nat.min_le_right c r
              simp only [loopStep]
              omega
      exact hreach S S le_rfl
    · exact ⟨0, by simp [h0]⟩

/-! ### Claims about the CLI driver -/

theorem splitext_recombine (p : List Char) :
    (splitextChars p).1 ++ (splitextChars p).2 = p := by
  rw [splitextChars]
  split
  · exact List.take_append_drop _ p
  · exact List.append_nil p

/-- Claim C9: with `N > 1` size tokens, the filename of the `i`-th size
(1-based index `i + 1` for the 0-based loop index `i`) is the base name
with `_<index>_<original size token>` inserted before its extension; with
exactly one size token the base name is used unmodified; and the spec's
concrete example names come out for `dummy.bin 100MB 200MB`. -/
theorem multi_size_filename_spec :
    (∀ (base tok : String) (count i : Nat), 1 < count →
        ∃ name ext, name ++ ext = base.data ∧
          outputFilename base count i tok =
            String.mk (name ++ ('_' :: (toString (i + 1)).data) ++ ('_' :: tok.data) ++ ext)) ∧
    (∀ (base tok : String) (i : Nat), outputFilename base 1 i tok = base) ∧
    outputFilename "dummy.bin" 2 0 "100MB" = "dummy_1_100MB.bin" ∧
    outputFilename "dummy.bin" 2 1 "200MB" = "dummy_2_200MB.bin" := by
  refine ⟨?_, ?_, by decide, by decide⟩
  · intro base tok count i hc
    refine ⟨(splitextChars base.data).1, (splitextChars base.data).2,
      splitext_recombine base.data, ?_⟩
    rw [outputFilename, if_pos hc]
  · intro base tok i
    rw [outputFilename, if_neg (by omega)]

/-- Witness for `multi_size_filename_spec` with three sizes and base
`a.txt`. -/
theorem multi_size_filename_spec_witness :
    ∃ name ext, name ++ ext = "a.txt".data ∧
      outputFilename "a.txt" 3 1 "5KB" =
        String.mk (name ++ ('_' :: (toString (1 + 1)).data) ++ ('_' :: "5KB".data) ++ ext) :=
  multi_size_filename_spec.1 "a.txt" "5KB" 3 1 (by decide)

/-- Claim C8: when the target exists, `--force` is not set and the
operator's overwrite answer is anything but a case-insensitive `y`/`yes`,
that file's iteration takes the `continue`: it is recorded as skipped,
contributes to neither the success count nor the failure count, and every
other requested file is still processed exactly as before. -/
theorem decline_overwrite_skips :
    ∀ (ct : ContentType) (rng : Nat → Nat) (c S : Nat) (env : FileEnv)
      (l1 l2 : List (Nat × FileEnv)),
      env.exist = true → sayYes env.owResp = false →
      ((l1 ++ (S, env) :: l2).map (fun t => processFile ct rng false c t.1 t.2) =
          l1.map (fun t => processFile ct rng false c t.1 t.2) ++
            Outcome.skipped :: l2.map (fun t => processFile ct rng false c t.1 t.2)) ∧
      countSuccess ((l1 ++ (S, env) :: l2).map (fun t => processFile ct rng false c t.1 t.2)) =
        countSuccess ((l1 ++ l2).map (fun t => processFile ct rng false c t.1 t.2)) ∧
      countFailed ((l1 ++ (S, env) :: l2).map (fun t => processFile ct rng false c t.1 t.2)) =
        countFailed ((l1 ++ l2).map (fun t => processFile ct rng false c t.1 t.2)) := by
  intro ct rng c S env l1 l2 hex hresp
  have hskip : processFile ct rng false c S env = Outcome.skipped := by
    rw [processFile, if_pos (by rw [hex, hresp]; rfl)]
  refine ⟨?_, ?_, ?_⟩
  · rw [List.map_append, List.map_cons, hskip]
  · rw [countSuccess, countSuccess, List.map_append, List.map_cons, hskip,
      List.countP_append, List.countP_cons_of_neg _ _ (by decide), List.map_append,
      List.countP_append]
  · rw [countFailed, countFailed, List.map_append, List.map_cons, hskip,
      List.countP_append, List.countP_cons_of_neg _ _ (by decide), List.map_append,
      List.countP_append]

/-- Witness for `decline_overwrite_skips`: answering `"n"` for an existing
file between two other files that both succeed. -/
theorem decline_overwrite_skips_witness :
    (([(8, (⟨false, "", none, "", none⟩ : FileEnv))] ++
          (3, (⟨true, "n", none, "", none⟩ : FileEnv)) ::
            [(6, (⟨false, "", none, "", none⟩ : FileEnv))]).map
        (fun t : Nat × FileEnv => processFile ContentType.zeros zeroRng false 4 t.1 t.2) =
      [(8, (⟨false, "", none, "", none⟩ : FileEnv))].map
          (fun t : Nat × FileEnv => processFile ContentType.zeros zeroRng false 4 t.1 t.2) ++
        Outcome.skipped ::
          [(6, (⟨false, "", none, "", none⟩ : FileEnv))].map
            (fun t : Nat × FileEnv => processFile ContentType.zeros zeroRng false 4 t.1 t.2)) ∧
    countSuccess ((([(8, (⟨false, "", none, "", none⟩ : FileEnv))] ++
          (3, (⟨true, "n", none, "", none⟩ : FileEnv)) ::
            [(6, (⟨false, "", none, "", none⟩ : FileEnv))]).map
        (fun t : Nat × FileEnv => processFile ContentType.zeros zeroRng false 4 t.1 t.2))) =
      countSuccess ((([(8, (⟨false, "", none, "", none⟩ : FileEnv))] ++
          [(6, (⟨false, "", none, "", none⟩ : FileEnv))]).map
        (fun t : Nat × FileEnv => processFile ContentType.zeros zeroRng false 4 t.1 t.2))) ∧
    countFailed ((([(8, (⟨false, "", none, "", none⟩ : FileEnv))] ++
          (3, (⟨true, "n", none, "", none⟩ : FileEnv)) ::
            [(6, (⟨false, "", none, "", none⟩ : FileEnv))]).map
        (fun t : Nat × FileEnv => processFile ContentType.zeros zeroRng false 4 t.1 t.2))) =
      countFailed ((([(8, (⟨false, "", none, "", none⟩ : FileEnv))] ++
          [(6, (⟨false, "", none, "", none⟩ : FileEnv))]).map
        (fun t : Nat × FileEnv => processFile ContentType.zeros zeroRng false 4 t.1 t.2))) :=
  decline_overwrite_skips ContentType.zeros zeroRng 4 3 ⟨true, "n", none, "", none⟩
    [(8, ⟨false, "", none, "", none⟩)] [(6, ⟨false, "", none, "", none⟩)] rfl (by decide)
